import Mathlib

/-!
Shallow embedding of the web-scraping pipeline (config.py, scraper.py,
parser.py, storage.py, main.py) and proofs about it.

The embedding models each source function over explicit data:
HTML documents are abstracted as a selection oracle (a `Soup`), the
network and the filesystem are abstracted as oracles supplied to the
pipeline, and Python dictionaries are modelled as ordered association
lists, matching insertion-order iteration of `dict`.
-/

namespace WebScrape

/-! ## Python string helpers -/

/-- Model of the Python string method strip with no argument: drop
whitespace from both ends. -/
def pyStrip (s : String) : String :=
⟨((s.data.dropWhile Char.isWhitespace).reverse.dropWhile Char.isWhitespace).reverse⟩

/-- Model of the Python string method startswith: the first argument is
the receiver, the second the candidate prefix. -/
def pyStartsWith (s pre : String) : Bool :=
pre.data.isPrefixOf s.data

/-- Python truthiness test `not html_content` for an optional string:
true when the value is absent or the empty string. -/
def pyFalsy : Option String → Bool
| none => true
| some s => s.isEmpty

/-! ## Extractor model (parser.py) -/

/-- Possible values of one field of a parsed record, matching
`Parser.parse_html`, which stores `None`, a single trimmed string, or a
list of trimmed strings. -/
inductive PValue where
| null : PValue
| str (s : String) : PValue
| list (l : List String) : PValue
deriving DecidableEq, Repr

/-- Abstraction of a BeautifulSoup document: `select` returns the raw
text of each element matching a CSS selector (in document order), and
`text` is the full page text (`soup.get_text()`). -/
structure Soup where
select : String → List String
text : String

/-- Value computed for a single selector in `Parser.parse_html`
(parser.py lines 30-37): select elements, trim each element text; an
empty match list gives `None`, a singleton collapses to the scalar,
otherwise the list is kept. -/
def selectorValue (soup : Soup) (sel : String) : PValue :=
match (soup.select sel).map pyStrip with
| [] => PValue.null
| [t] => PValue.str t
| ts => PValue.list ts

/-- Model of `Parser.parse_html` (parser.py lines 10-39).
The soup built from the content is abstracted by `soupOf`. -/
def parse_html (soupOf : String → Soup) (content : Option String)
    (selectors : List (String × String)) : List (String × PValue) :=
if pyFalsy content then []
else
let soup := soupOf (content.getD "")
if selectors.isEmpty then [("text", PValue.str soup.text)]
else selectors.map (fun p => (p.1, selectorValue soup p.2))

/-- Href absolutization performed by `Parser.extract_links`
(parser.py lines 76-80): absolute hrefs pass through, hrefs with a
leading slash are concatenated to the base directly, all other hrefs get
a single slash inserted between base and href. -/
def absolutizeHref (baseUrl : Option String) (href : String) : String :=
match baseUrl with
| none => href
| some base =>
  if pyStartsWith href "http://" || pyStartsWith href "https://" then href
  else if pyStartsWith href "/" then base ++ href
  else base ++ "/" ++ href

/-- Model of `Parser.extract_links` (parser.py lines 54-87). An anchor
is the (href, text) pair of one a tag carrying an href attribute, in
document order; javascript hrefs are skipped, all others are emitted
with absolutized url and stripped text. -/
def extract_links (anchors : List (String × String))
    (baseUrl : Option String) : List (String × String) :=
anchors.filterMap (fun a =>
  if pyStartsWith a.1 "javascript:" then none
  else some (absolutizeHref baseUrl a.1, pyStrip a.2))

/-- Number of positions in a character list at which two consecutive
slashes occur (counting overlaps, so three slashes in a row count
twice). -/
def dsCount : List Char → Nat
| [] => 0
| [_] => 0
| a :: b :: rest => (if a = '/' ∧ b = '/' then 1 else 0) + dsCount (b :: rest)

/-! ## Fetch retry model (scraper.py, config.py) -/

/-- Model of Config.get_max_retries (config.py lines 26-27): the value
of the max_retries setting, defaulting to 3 when absent. -/
def get_max_retries (cfg : List (String × Nat)) : Nat :=
(cfg.lookup "max_retries").getD 3

/-- Wait produced by wait_exponential with multiplier 1, floor 2 and cap
60 after failed attempt number n: two to the n, clamped into the
interval from 2 to 60. -/
def waitExp (n : Nat) : ℚ :=
max 2 (min 60 ((2 : ℚ) ^ n))

/-- One run of the tenacity retry loop with a stop-after-attempt bound:
attempt number n executes f n; on failure with attempts remaining it
records the wait waitExp n and tries again; the last allowed attempt
propagates its own error. Returns the final result, the number of
attempts made, and the waits performed in order. -/
def retryRun {E A : Type} (f : Nat → Except E A) : Nat → Nat → Except E A × Nat × List ℚ
| 0, n => (f n, n, [])
| 1, n => (f n, n, [])
| (k+2), n =>
  match f n with
  | Except.ok a => (Except.ok a, n, [])
  | Except.error _ =>
    let r := retryRun f (k+1) (n+1)
    (r.1, r.2.1, waitExp n :: r.2.2)

/-- Model of SimpleScraper.scrape under its decorator
(scraper.py line 91): retry with stop_after_attempt 3 and
wait_exponential of multiplier 1, floor 2, cap 60. The attempt bound 3
is a literal in the decorator, not read from the configuration. The body
of attempt n (sleep, HTTP get, raise_for_status) is abstracted as f n. -/
def simpleScrape {E A : Type} (f : Nat → Except E A) : Except E A × Nat × List ℚ :=
retryRun f 3 1

/-- Model of SeleniumScraper.scrape (scraper.py lines 157-178) seen
through the retry dimension: it carries no retry decorator, so the
single attempt's error propagates immediately. The other browser and
crawler variants are identical in this respect. -/
def seleniumScrape {E A : Type} (f : Nat → Except E A) : Except E A × Nat × List ℚ :=
(f 1, 1, [])

/-! ## Relational storage model (storage.py, SQLiteStorage) -/

/-- JSON-like value held by one field of a stored record. -/
inductive JVal where
| s (v : String) : JVal
| num (v : Int) : JVal
| null : JVal
deriving DecidableEq, Repr

/-- One row of the scraped items table (storage.py lines 300-308):
promoted columns id, url, title, content and timestamp plus the metadata
JSON text column, carried here in parsed form; none models an empty or
unparseable metadata column, which load leaves unmerged
(storage.py lines 415-420). -/
structure SqlRow where
rid : Nat
url : JVal
title : JVal
content : JVal
timestamp : Option String
metadata : Option (List (String × JVal))

/-- Python dict update: keys of upd override same-key entries of base in
place, and keys of upd absent from base are appended in upd order. -/
def dictUpdate (base upd : List (String × JVal)) : List (String × JVal) :=
base.map (fun p => (p.1, (List.lookup p.1 upd).getD p.2))
  ++ upd.filter (fun p => (List.lookup p.1 base).isNone)

/-- Model of SQLiteStorage.save restricted to one item (storage.py
lines 342-361): url, title and content are promoted (empty string when
absent), the timestamp column receives the server-side save time, and
every remaining field goes to the metadata JSON column. -/
def sqlSaveRow (newId : Nat) (saveTime : String)
    (item : List (String × JVal)) : SqlRow :=
{ rid := newId
  url := (List.lookup "url" item).getD (JVal.s "")
  title := (List.lookup "title" item).getD (JVal.s "")
  content := (List.lookup "content" item).getD (JVal.s "")
  timestamp := some saveTime
  metadata := some (item.filter
    (fun p => !(["url", "title", "content"].contains p.1))) }

/-- Item constructed by SQLiteStorage.load for one row (storage.py lines
405-412) before the metadata merge: the promoted columns as first-class
fields, the timestamp column rendered in isoformat or null. -/
def sqlBaseItem (r : SqlRow) : List (String × JVal) :=
[("id", JVal.num r.rid), ("url", r.url), ("title", r.title),
 ("content", r.content),
 ("timestamp", match r.timestamp with
   | some t => JVal.s t
   | none => JVal.null)]

/-- Model of SQLiteStorage.load restricted to one row (storage.py lines
405-422): build the promoted-column item, then update it in Python dict
semantics with the parsed metadata JSON. -/
def sqlLoadRow (r : SqlRow) : List (String × JVal) :=
match r.metadata with
| none => sqlBaseItem r
| some md => dictUpdate (sqlBaseItem r) md

/-! ## Flat-file storage model (storage.py, CSVStorage) -/

/-- Value of one field of a record arriving at flat-file storage: a
scalar or a nested mapping. -/
inductive CVal where
| s (v : String) : CVal
| num (v : Int) : CVal
| dict (entries : List (String × CVal)) : CVal

/-- Flattening of one record performed by CSVStorage.save (storage.py
lines 71-80): a nested mapping value is expanded one level into
parent_child keys, every other value passes through unchanged. -/
def flattenItem : List (String × CVal) → List (String × CVal)
| [] => []
| (k, CVal.dict entries) :: rest =>
  entries.map (fun q => (k ++ "_" ++ q.1, q.2)) ++ flattenItem rest
| (k, v) :: rest => (k, v) :: flattenItem rest

/-- One line of the flat file: a header line carrying the field names or
a data line carrying one cell per field name, none when the record lacks
the field (the writer then emits its empty default). Cell stringification
is immaterial to the claims and left out. -/
inductive CsvRow where
| header (fields : List String) : CsvRow
| data (cells : List (Option CVal)) : CsvRow

/-- Test for a header line. -/
def isHeaderRow : CsvRow → Bool
| CsvRow.header _ => true
| CsvRow.data _ => false

/-- Number of header lines in a file. -/
def headerCount (rows : List CsvRow) : Nat :=
rows.countP isHeaderRow

/-- Number of data lines in a file. -/
def dataCount (rows : List CsvRow) : Nat :=
rows.countP (fun r => !(isHeaderRow r))

/-- Model of CSVStorage.save for one batch (storage.py lines 49-100):
flatten every record, take the union of the flattened keys as the field
names (the source collects them in a set, so their order is
unspecified; dedup of the concatenation is one representative), append
one data line per record, and prepend a header line only when the file
did not already exist. -/
def csvSave (data : List (List (String × CVal)))
    (file : Option (List CsvRow)) : List CsvRow :=
let flat := data.map flattenItem
let fieldnames := (flat.map (fun item => item.map (fun p => p.1))).flatten.dedup
let rows := flat.map (fun item =>
  CsvRow.data (fieldnames.map (fun f => List.lookup f item)))
match file with
| none => CsvRow.header fieldnames :: rows
| some existing => existing ++ rows

/-! ## Pipeline orchestrator model (main.py, execute_pipeline) -/

/-- Fetch backend selector, main.py line 47 and scraper.py 19-37. -/
inductive ScrMode where
| simple | selenium | scrapy | pyppeteer | playwright
deriving DecidableEq, Repr

/-- Storage backend selector, storage.py 13-29. -/
inductive StoType where
| csv | json | mongodb | sqlite
deriving DecidableEq, Repr

/-- Observable events of one pipeline run, in program order. -/
inductive Event where
| scraperInit (m : ScrMode) : Event
| browserLaunch : Event
| storageInit (t : StoType) : Event
| storageConnect : Event
| sleepJittered : Event
| fetchCall (url : String) : Event
| saveCall (url : String) : Event
| urlError (url : String) : Event
| sleepPlain : Event
| postProcessRun : Event
| closeScraper : Event
| closeStorage : Event
deriving DecidableEq, Repr

/-- Environment of one run: whether config loading and backend
construction succeed, the outcome oracle of scraper.scrape per url
(content, possibly empty, or a raised error), the outcome oracle of
storage.save per url, the site-registry urls, and the selected
backends. -/
structure PipelineEnv where
setupOk : Bool
fetch : String → Except String String
saveOk : String → Bool
siteUrls : String → List String
storageType : StoType
scraperMode : ScrMode

/-- The pipeline-configuration fields the orchestrator reads
(main.py lines 55-56 and 127). -/
structure PipeCfg where
urls : List String
siteName : Option String
postProcessing : Bool

/-- Construction events of the fetch backend: the selenium variant
launches a browser inside its constructor (scraper.py lines 124 and
155); the other variants open no external resource at construction. -/
def scraperInitEvents : ScrMode → List Event
| ScrMode.selenium => [Event.scraperInit ScrMode.selenium, Event.browserLaunch]
| m => [Event.scraperInit m]

/-- Construction events of the storage backend: the sqlite variant
connects and creates its table inside its constructor (storage.py lines
288-310), touching the database file; the flat-file variants open
nothing at construction. -/
def storageInitEvents : StoType → List Event
| StoType.sqlite => [Event.storageInit StoType.sqlite, Event.storageConnect]
| t => [Event.storageInit t]

/-- Events and success of the loop body for one url (main.py lines
79-122). The fetch backend sleeps a jittered delay before the request
(scraper.py lines 76-77 and 94); empty content is skipped with a
warning; a raise from fetch or save is caught and logged as a url error;
only after a successful save does the orchestrator sleep the plain
configured delay (main.py line 119). -/
def processUrl (env : PipelineEnv) (u : String) : List Event × Bool :=
match env.fetch u with
| Except.error _ => ([Event.sleepJittered, Event.fetchCall u, Event.urlError u], false)
| Except.ok c =>
  if c = "" then ([Event.sleepJittered, Event.fetchCall u], false)
  else if env.saveOk u then
    ([Event.sleepJittered, Event.fetchCall u, Event.saveCall u,
      Event.sleepPlain], true)
  else
    ([Event.sleepJittered, Event.fetchCall u, Event.saveCall u,
      Event.urlError u], false)

/-- Whether the loop body for this url raises (and is caught),
main.py line 121. -/
def urlRaises (env : PipelineEnv) (u : String) : Bool :=
match env.fetch u with
| Except.error _ => true
| Except.ok c => (c != "") && !(env.saveOk u)

/-- Events of the whole url loop, in list order. -/
def loopEvents (env : PipelineEnv) : List String → List Event
| [] => []
| u :: rest => (processUrl env u).1 ++ loopEvents env rest

/-- Url resolution (main.py lines 55-62): explicit urls extended with
the site-registry urls when a site name is given. -/
def resolvedUrls (env : PipelineEnv) (cfg : PipeCfg) : List String :=
cfg.urls ++ (match cfg.siteName with
  | some s => env.siteUrls s
  | none => [])

/-- Model of execute_pipeline (main.py lines 31-138): on setup failure
the outer handler returns False; backends are constructed, urls
resolved; an empty url list returns False at once (without closing the
backends, which are already constructed); otherwise every url is
processed in order, post-processing optionally runs, both backends are
closed, and True is returned. -/
def execute_pipeline (env : PipelineEnv) (cfg : PipeCfg) : List Event × Bool :=
if env.setupOk = false then ([], false)
else
let setup := scraperInitEvents env.scraperMode ++ storageInitEvents env.storageType
if (resolvedUrls env cfg).isEmpty then (setup, false)
else
let post := if cfg.postProcessing then [Event.postProcessRun] else []
(setup ++ loopEvents env (resolvedUrls env cfg) ++ post
  ++ [Event.closeScraper, Event.closeStorage], true)

/-! ## Witness fixtures for the extractor -/

/-- Run environment fixture: url u1 fails to fetch, u2 fetches but fails
to save, every other url succeeds. -/
def envW : PipelineEnv :=
{ setupOk := true
  fetch := fun u => if u = "u1" then Except.error "boom" else Except.ok "<p>hi</p>"
  saveOk := fun u => u != "u2"
  siteUrls := fun _ => []
  storageType := StoType.csv
  scraperMode := ScrMode.simple }

/-- Three-url pipeline configuration fixture. -/
def cfgW : PipeCfg :=
{ urls := ["u1", "u2", "u3"], siteName := none, postProcessing := false }

/-- Zero-url pipeline configuration fixture. -/
def cfgZero : PipeCfg :=
{ urls := [], siteName := none, postProcessing := false }

/-- Environment fixture selecting the relational storage backend. -/
def envSql : PipelineEnv :=
{ envW with storageType := StoType.sqlite }

/-- Document fixture used in witnesses: selector h1 matches one element,
selector p matches two, anything else matches none. -/
def soupW : Soup :=
⟨fun sel => if sel = "h1" then [" A "] else if sel = "p" then ["x ", " y"] else [],
 "full page"⟩

/-- Selector-map fixture used in witnesses. -/
def selsW : List (String × String) :=
[("title", "h1"), ("para", "p"), ("missing", "div")]

/-! ## Extractor lemmas -/

theorem selectorValue_nil (soup : Soup) (sel : String)
    (h : soup.select sel = []) : selectorValue soup sel = PValue.null := by
unfold selectorValue
rw [h]
rfl

theorem selectorValue_single (soup : Soup) (sel : String) (t : String)
    (h : soup.select sel = [t]) :
    selectorValue soup sel = PValue.str (pyStrip t) := by
unfold selectorValue
rw [h]
rfl

theorem selectorValue_many (soup : Soup) (sel : String)
    (h : 2 ≤ (soup.select sel).length) :
    selectorValue soup sel
      = PValue.list ((soup.select sel).map pyStrip) := by
unfold selectorValue
rcases hsel : soup.select sel with _ | ⟨a, _ | ⟨b, l⟩⟩
· rw [hsel] at h; simp at h
· rw [hsel] at h; simp at h
· simp

theorem dsCount_cons (a : Char) (t : List Char) :
    dsCount (a :: t)
      = (if a = '/' ∧ t.head? = some '/' then 1 else 0) + dsCount t := by
cases t with
| nil => simp [dsCount]
| cons b r => simp [dsCount]

/-- Double-slash occurrences in a concatenation: the occurrences of each
part plus possibly one occurrence straddling the boundary. -/
theorem dsCount_append (xs ys : List Char) :
    dsCount (xs ++ ys)
      = dsCount xs + dsCount ys
        + (if xs.getLast? = some '/' ∧ ys.head? = some '/' then 1 else 0) := by
induction xs with
| nil => simp [dsCount]
| cons a l ih =>
  cases l with
  | nil =>
    rw [List.cons_append, List.nil_append, dsCount_cons]
    simp [dsCount]
    omega
  | cons c m =>
    rw [List.cons_append, dsCount_cons, ih]
    simp only [List.cons_append, List.head?_cons, List.getLast?_cons_cons,
      Option.some.injEq, dsCount]
    split_ifs <;> omega

/-! ## Association list lemmas -/

theorem lookup_cons_eq (k a : String) (b : JVal) (t : List (String × JVal)) :
    List.lookup k ((a, b) :: t) = if k = a then some b else List.lookup k t := by
by_cases h : k = a
· subst h
  simp [List.lookup]
· have hb : (k == a) = false := by
    simp [h]
  simp [List.lookup, hb, h]

theorem lookup_map_entry (f : String → JVal → JVal)
    (base : List (String × JVal)) (k : String) :
    List.lookup k (base.map (fun p => (p.1, f p.1 p.2)))
      = (List.lookup k base).map (f k) := by
induction base with
| nil => rfl
| cons p t ih =>
  obtain ⟨a, b⟩ := p
  rw [List.map_cons, lookup_cons_eq, lookup_cons_eq]
  by_cases hka : k = a
  · subst hka
    simp
  · simp [hka, ih]

theorem lookup_filter_none (base upd : List (String × JVal)) (k : String)
    (hb : List.lookup k base = none) :
    List.lookup k (upd.filter (fun p => (List.lookup p.1 base).isNone))
      = List.lookup k upd := by
induction upd with
| nil => rfl
| cons p t ih =>
  obtain ⟨a, b⟩ := p
  rw [List.filter_cons]
  by_cases hka : k = a
  · subst hka
    have hkeep : (List.lookup k base).isNone = true := by
      rw [hb]
      rfl
    simp only [hkeep, if_true, lookup_cons_eq, if_pos rfl]
  · cases hf : (List.lookup a base).isNone with
    | true =>
      simp only [hf, if_true, lookup_cons_eq, if_neg hka, ih]
    | false =>
      simp only [hf, Bool.false_eq_true, if_false, ih, lookup_cons_eq,
        if_neg hka]

/-- Lookup in a Python dict after update: a key of upd yields the upd
value, any other key keeps the base value. -/
theorem lookup_dictUpdate (base upd : List (String × JVal)) (k : String) :
    List.lookup k (dictUpdate base upd)
      = match List.lookup k base with
        | some v => some ((List.lookup k upd).getD v)
        | none => List.lookup k upd := by
unfold dictUpdate
rw [List.lookup_append, lookup_map_entry (fun key val => (List.lookup key upd).getD val)]
cases hb : List.lookup k base with
| some v => simp
| none => simp [lookup_filter_none base upd k hb]

/-! ## Pipeline lemmas -/

theorem mem_processUrl_fetch (env : PipelineEnv) (u : String) :
    Event.fetchCall u ∈ (processUrl env u).1 := by
unfold processUrl
cases hf : env.fetch u with
| error e => simp
| ok c =>
  by_cases hc : c = ""
  · simp [hc]
  · by_cases hsv : env.saveOk u <;> simp [hc, hsv]

theorem mem_processUrl_urlError (env : PipelineEnv) (u : String)
    (hr : urlRaises env u = true) :
    Event.urlError u ∈ (processUrl env u).1 := by
unfold urlRaises at hr
unfold processUrl
cases hf : env.fetch u with
| error e => simp
| ok c =>
  rw [hf] at hr
  simp only [Bool.and_eq_true, bne_iff_ne, Bool.not_eq_eq_eq_not,
    Bool.not_true] at hr
  simp [hr.1, hr.2]

theorem mem_loopEvents (env : PipelineEnv) (urls : List String)
    (u : String) (e : Event) (hu : u ∈ urls)
    (he : e ∈ (processUrl env u).1) : e ∈ loopEvents env urls := by
induction urls with
| nil => cases hu
| cons a rest ih =>
  rw [loopEvents]
  rcases List.mem_cons.mp hu with h | h
  · subst h
    exact List.mem_append_left _ he
  · exact List.mem_append_right _ (ih h)

/-- Trace shape of a run with at least one resolved url. -/
theorem execute_pipeline_run (env : PipelineEnv) (cfg : PipeCfg)
    (hs : env.setupOk = true) (hu : resolvedUrls env cfg ≠ []) :
    execute_pipeline env cfg
      = (scraperInitEvents env.scraperMode ++ storageInitEvents env.storageType
          ++ loopEvents env (resolvedUrls env cfg)
          ++ (if cfg.postProcessing then [Event.postProcessRun] else [])
          ++ [Event.closeScraper, Event.closeStorage], true) := by
have hne : (resolvedUrls env cfg).isEmpty = false := by
  cases h : resolvedUrls env cfg with
  | nil => exact absurd h hu
  | cons a t => rfl
unfold execute_pipeline
simp [hs, hne]

/-- Trace shape of a run whose resolved url list is empty. -/
theorem execute_pipeline_empty (env : PipelineEnv) (cfg : PipeCfg)
    (hs : env.setupOk = true) (hu : resolvedUrls env cfg = []) :
    execute_pipeline env cfg
      = (scraperInitEvents env.scraperMode
          ++ storageInitEvents env.storageType, false) := by
have hne : (resolvedUrls env cfg).isEmpty = true := by
  rw [hu]
  rfl
unfold execute_pipeline
simp [hs, hne]

/-! ## Flat-file lemmas -/

theorem headerCount_map_data {α : Type} (l : List α)
    (g : α → List (Option CVal)) :
    headerCount (l.map (fun x => CsvRow.data (g x))) = 0 := by
induction l with
| nil => rfl
| cons a t ih =>
  rw [List.map_cons]
  unfold headerCount at *
  rw [List.countP_cons]
  simp [isHeaderRow, ih]

theorem dataCount_map_data {α : Type} (l : List α)
    (g : α → List (Option CVal)) :
    dataCount (l.map (fun x => CsvRow.data (g x))) = l.length := by
induction l with
| nil => rfl
| cons a t ih =>
  rw [List.map_cons]
  unfold dataCount at *
  rw [List.countP_cons]
  simp [isHeaderRow, ih]

/-- A save on a fresh path produces one header line followed by one data
line per record. -/
theorem csvSave_none_parts (d : List (List (String × CVal))) :
    ∃ f r, csvSave d none = CsvRow.header f :: r
      ∧ headerCount r = 0 ∧ dataCount r = d.length ∧ r.length = d.length := by
refine ⟨_, _, rfl, headerCount_map_data _ _, ?_, ?_⟩
· rw [dataCount_map_data]
  simp
· simp

/-- A save on an existing file appends one data line per record and no
header line. -/
theorem csvSave_some_parts (d : List (List (String × CVal)))
    (e : List CsvRow) :
    ∃ r, csvSave d (some e) = e ++ r
      ∧ headerCount r = 0 ∧ dataCount r = d.length ∧ r.length = d.length := by
refine ⟨_, rfl, headerCount_map_data _ _, ?_, ?_⟩
· rw [dataCount_map_data]
  simp
· simp

/-! ## Claim theorems for the extractor -/

/-- C2: for non-empty content, parse_html maps each selector key to null
when the selector matches zero elements, to the single trimmed text when
it matches exactly one, and to the ordered list of trimmed texts when it
matches more than one; with no selector map the result is the single
entry (text, full page text). -/
theorem claim_C2_parse_html_match_rules (soupOf : String → Soup)
    (content : Option String) (sels : List (String × String))
    (hc : pyFalsy content = false) :
    (sels = [] →
      parse_html soupOf content sels
        = [("text", PValue.str (soupOf (content.getD "")).text)])
    ∧ (sels ≠ [] →
      parse_html soupOf content sels
        = sels.map (fun p => (p.1, selectorValue (soupOf (content.getD "")) p.2)))
    ∧ (∀ sel, (soupOf (content.getD "")).select sel = [] →
        selectorValue (soupOf (content.getD "")) sel = PValue.null)
    ∧ (∀ sel t, (soupOf (content.getD "")).select sel = [t] →
        selectorValue (soupOf (content.getD "")) sel = PValue.str (pyStrip t))
    ∧ (∀ sel, 2 ≤ ((soupOf (content.getD "")).select sel).length →
        selectorValue (soupOf (content.getD "")) sel
          = PValue.list (((soupOf (content.getD "")).select sel).map pyStrip)) := by
refine ⟨?_, ?_, ?_, ?_, ?_⟩
· intro h
  subst h
  simp [parse_html, hc]
· intro h
  have hne : sels.isEmpty = false := by
    cases sels with
    | nil => exact absurd rfl h
    | cons a l => rfl
  simp [parse_html, hc, hne]
· intro sel h
  exact selectorValue_nil _ _ h
· intro sel t h
  exact selectorValue_single _ _ _ h
· intro sel h
  exact selectorValue_many _ _ h

/-- Witness for C2 at a concrete document and selector map. -/
theorem claim_C2_witness :
    pyFalsy (some "<html>") = false ∧
    parse_html (fun _ => soupW) (some "<html>") selsW
      = [("title", PValue.str "A"), ("para", PValue.list ["x", "y"]),
         ("missing", PValue.null)] := by
have h := claim_C2_parse_html_match_rules (fun _ => soupW) (some "<html>") selsW rfl
refine ⟨rfl, ?_⟩
rw [h.2.1 (by simp [selsW])]
decide

/-- C8 as stated is false: with a base URL that itself ends in a slash,
a leading-slash href is concatenated directly (parser.py line 78) and the
joined URL has a duplicated path separator at the join point. -/
theorem claim_C8_counterexample :
    extract_links [("/b", "t")] (some "http://a/") = [("http://a//b", "t")]
    ∧ dsCount ("http://a//b".data) = 2
    ∧ dsCount ("http://a/".data) = 1
    ∧ dsCount ("/b".data) = 0 := by
refine ⟨by decide, by decide, by decide, by decide⟩

/-- C8 amended: anchors whose href starts with javascript: are always
excluded; a relative href with a leading slash is concatenated directly
to the base URL and any other relative href gets exactly one slash
inserted; provided the base URL does not itself end with a slash, the
join introduces no double slash beyond those already present in the base
or in the href. -/
theorem claim_C8_extract_links_amended :
    (∀ h t anchors base, pyStartsWith h "javascript:" = true →
      extract_links ((h, t) :: anchors) base = extract_links anchors base)
    ∧ (∀ base href, pyStartsWith href "http://" = false →
        pyStartsWith href "https://" = false →
        absolutizeHref (some base) href
          = if pyStartsWith href "/" then base ++ href else base ++ "/" ++ href)
    ∧ (∀ base href, pyStartsWith href "http://" = false →
        pyStartsWith href "https://" = false →
        base.data.getLast? ≠ some '/' →
        dsCount (absolutizeHref (some base) href).data
          = dsCount base.data + dsCount href.data) := by
have habs : ∀ base href, pyStartsWith href "http://" = false →
    pyStartsWith href "https://" = false →
    absolutizeHref (some base) href
      = if pyStartsWith href "/" then base ++ href else base ++ "/" ++ href := by
  intro base href h1 h2
  simp [absolutizeHref, h1, h2]
refine ⟨?_, habs, ?_⟩
· intro h t anchors base hjs
  simp [extract_links, hjs]
· intro base href h1 h2 hlast
  rw [habs base href h1 h2]
  cases hs : pyStartsWith href "/" with
  | true =>
    rw [if_pos rfl, String.data_append, dsCount_append]
    simp [hlast]
  | false =>
    have hhead : href.data.head? ≠ some '/' := by
      unfold pyStartsWith at hs
      cases hd : href.data with
      | nil => simp
      | cons c r =>
        rw [hd] at hs
        simp only [List.isPrefixOf, Bool.and_eq_true, beq_iff_eq] at hs
        simp only [List.head?_cons, Ne, Option.some.injEq]
        intro hc
        rw [hc] at hs
        simp at hs
    have hslash : String.data "/" = ['/'] := rfl
    rw [if_neg (by simp), String.data_append, String.data_append, hslash,
        dsCount_append (base.data ++ ['/']) href.data,
        dsCount_append base.data ['/']]
    simp [hlast, hhead, dsCount]

/-- Witness for the amended C8 at concrete anchors and base URLs. -/
theorem claim_C8_witness :
    extract_links [("javascript:void(0)", "x")] (some "http://a") = []
    ∧ dsCount (absolutizeHref (some "http://a") "/b").data
        = dsCount ("http://a".data) + dsCount ("/b".data)
    ∧ dsCount (absolutizeHref (some "http://a") "b").data
        = dsCount ("http://a".data) + dsCount ("b".data) := by
have h1 := claim_C8_extract_links_amended.1 "javascript:void(0)" "x" []
  (some "http://a") (by decide)
have h2 := claim_C8_extract_links_amended.2.2 "http://a" "/b"
  (by decide) (by decide) (by decide)
have h3 := claim_C8_extract_links_amended.2.2 "http://a" "b"
  (by decide) (by decide) (by decide)
exact ⟨h1, h2, h3⟩

/-- C10: parse_html applied to absent or empty content returns the empty
record, for every selector map, including non-empty ones. -/
theorem claim_C10_parse_html_empty_content (soupOf : String → Soup)
    (sels : List (String × String)) :
    parse_html soupOf none sels = [] ∧ parse_html soupOf (some "") sels = [] := by
constructor <;> rfl

/-- C4 as stated is false: the retry decorator of the plain-HTTP backend
hard-codes 3 attempts, so with max_retries configured to 5 the backend
still stops after 3 attempts; moreover only this variant retries at
all. -/
theorem claim_C4_counterexample :
    get_max_retries [("max_retries", 5)] = 5
    ∧ (simpleScrape (fun _ => (Except.error 0 : Except Nat String))).2.1 = 3
    ∧ (3 : Nat) ≠ 5 := by
refine ⟨by decide, ?_, by decide⟩
rfl

/-- C4 amended: only the plain-HTTP backend retries; it makes exactly 3
attempts (a literal constant, coinciding with the default max_retries
but not read from configuration) with waits 2 and 4 time units, which
are non-decreasing, at least the floor 2 and at most the cap 60, and
after the last attempt the error propagates to the caller; the
browser-automation variants make a single attempt and propagate
immediately. -/
theorem claim_C4_retry_amended {E A : Type} (f : Nat → Except E A)
    (err : Nat → E) (hf : ∀ n, f n = Except.error (err n)) :
    simpleScrape f = (Except.error (err 3), 3, [waitExp 1, waitExp 2])
    ∧ waitExp 1 = 2 ∧ waitExp 2 = 4
    ∧ List.Chain' (fun a b => a ≤ b) [waitExp 1, waitExp 2]
    ∧ (∀ w ∈ [waitExp 1, waitExp 2], 2 ≤ w ∧ w ≤ 60)
    ∧ seleniumScrape f = (Except.error (err 1), 1, []) := by
have h1 : waitExp 1 = 2 := by
  unfold waitExp
  norm_num
have h2 : waitExp 2 = 4 := by
  unfold waitExp
  norm_num
refine ⟨?_, h1, h2, ?_, ?_, ?_⟩
· unfold simpleScrape retryRun
  rw [hf 1]
  unfold retryRun
  rw [hf 2]
  unfold retryRun
  rw [hf 3]
· rw [h1, h2]
  simp
  norm_num
· intro w hw
  rw [h1, h2] at hw
  simp only [List.mem_cons, List.not_mem_nil, or_false] at hw
  rcases hw with h | h <;> rw [h] <;> norm_num
· unfold seleniumScrape
  rw [hf 1]

/-- C3 as stated is false: load merges with Python dict update, so when
the metadata JSON holds a key that names a promoted column the metadata
value, not the promoted-column value, survives. A row saved from an
orchestrator record always carries the record's timestamp field inside
the metadata JSON, which then shadows the timestamp column on load. -/
theorem claim_C3_counterexample :
    List.lookup "timestamp"
      (sqlLoadRow (sqlSaveRow 1 "2024-05-05T00:00:00"
        [("url", JVal.s "http://x"), ("timestamp", JVal.num 111)]))
      = some (JVal.num 111)
    ∧ (sqlSaveRow 1 "2024-05-05T00:00:00"
        [("url", JVal.s "http://x"), ("timestamp", JVal.num 111)]).timestamp
      = some "2024-05-05T00:00:00"
    ∧ JVal.num 111 ≠ JVal.s "2024-05-05T00:00:00" := by
refine ⟨by decide, by decide, by decide⟩

/-- C3 amended: on load the parsed metadata JSON wins the merge (Python
dict update): a key present in the metadata receives its metadata value
even when it names a promoted column, and a key absent from the metadata
keeps the promoted-column item value. -/
theorem claim_C3_load_amended (r : SqlRow) (md : List (String × JVal))
    (k : String) (hm : r.metadata = some md) :
    (∀ v, List.lookup k md = some v →
      List.lookup k (sqlLoadRow r) = some v)
    ∧ (List.lookup k md = none →
      List.lookup k (sqlLoadRow r) = List.lookup k (sqlBaseItem r)) := by
unfold sqlLoadRow
rw [hm]
constructor
· intro v hk
  rw [lookup_dictUpdate]
  cases hb : List.lookup k (sqlBaseItem r) <;> simp [hk]
· intro hk
  rw [lookup_dictUpdate]
  cases hb : List.lookup k (sqlBaseItem r) <;> simp [hk]

/-- Witness for the amended C3 at a concrete saved row. -/
theorem claim_C3_witness :
    List.lookup "timestamp"
      (sqlLoadRow (sqlSaveRow 2 "2024-06-06T00:00:00"
        [("url", JVal.s "http://y"), ("timestamp", JVal.num 222)]))
      = some (JVal.num 222) :=
(claim_C3_load_amended _ [("timestamp", JVal.num 222)] "timestamp"
  (by decide)).1 (JVal.num 222) (by decide)

/-- Witness for the amended C4 at a concrete always-failing fetch. -/
theorem claim_C4_witness :
    simpleScrape (fun _ => (Except.error 7 : Except Nat String))
      = (Except.error 7, 3, [(2 : ℚ), 4]) := by
have h := claim_C4_retry_amended (fun _ => (Except.error 7 : Except Nat String))
  (fun _ => 7) (fun _ => rfl)
rw [h.1, h.2.1, h.2.2.1]

/-- C1: in a run with at least one resolved url, every url is processed
(its fetch is attempted) regardless of earlier failures, any caught
per-url raise is logged as a url error, and the run still returns True:
no single url failure aborts the pipeline. -/
theorem claim_C1_per_url_failure_isolated (env : PipelineEnv)
    (cfg : PipeCfg) (hs : env.setupOk = true)
    (hu : resolvedUrls env cfg ≠ []) :
    (execute_pipeline env cfg).2 = true
    ∧ (∀ u ∈ resolvedUrls env cfg,
        Event.fetchCall u ∈ (execute_pipeline env cfg).1)
    ∧ (∀ u ∈ resolvedUrls env cfg, urlRaises env u = true →
        Event.urlError u ∈ (execute_pipeline env cfg).1) := by
rw [execute_pipeline_run env cfg hs hu]
refine ⟨rfl, ?_, ?_⟩
· intro u hmem
  have he := mem_loopEvents env _ u _ hmem (mem_processUrl_fetch env u)
  simp only [List.mem_append]
  exact Or.inl (Or.inl (Or.inr he))
· intro u hmem hr
  have he := mem_loopEvents env _ u _ hmem (mem_processUrl_urlError env u hr)
  simp only [List.mem_append]
  exact Or.inl (Or.inl (Or.inr he))

/-- Witness for C1: with u1 failing to fetch and u2 failing to save, the
run still fetches u3, logs errors for u1 and u2, and returns True. -/
theorem claim_C1_witness :
    (execute_pipeline envW cfgW).2 = true
    ∧ Event.fetchCall "u3" ∈ (execute_pipeline envW cfgW).1
    ∧ Event.urlError "u1" ∈ (execute_pipeline envW cfgW).1
    ∧ Event.urlError "u2" ∈ (execute_pipeline envW cfgW).1 := by
have h := claim_C1_per_url_failure_isolated envW cfgW rfl (by decide)
exact ⟨h.1, h.2.1 "u3" (by decide), h.2.2 "u1" (by decide) (by decide),
  h.2.2 "u2" (by decide) (by decide)⟩

/-- C5 fails on the code: on the zero-url path execute_pipeline returns
False without invoking either close (the close calls at main.py lines
131-132 sit at the end of the try block, not in a finally), even though
both backends were constructed. -/
theorem claim_C5_close_skipped_on_empty :
    (execute_pipeline envW cfgZero).2 = false
    ∧ Event.closeScraper ∉ (execute_pipeline envW cfgZero).1
    ∧ Event.closeStorage ∉ (execute_pipeline envW cfgZero).1 := by
refine ⟨by decide, by decide, by decide⟩

/-- C6 as stated is false: with the relational storage backend selected,
backend construction connects to the database and creates the table
before urls are resolved, so a zero-url run performs backend I/O even
though it returns failure. -/
theorem claim_C6_counterexample :
    (execute_pipeline envSql cfgZero).2 = false
    ∧ Event.storageConnect ∈ (execute_pipeline envSql cfgZero).1 := by
refine ⟨by decide, by decide⟩

/-- C6 amended: a zero-url run returns a failure result without
crashing, and performs no per-url backend I/O (no fetch and no save);
backend construction, which for the relational variant includes
connecting and creating the table, has already happened by then. -/
theorem claim_C6_no_urls_amended (env : PipelineEnv) (cfg : PipeCfg)
    (hs : env.setupOk = true) (hu : resolvedUrls env cfg = []) :
    (execute_pipeline env cfg).2 = false
    ∧ (∀ u, Event.fetchCall u ∉ (execute_pipeline env cfg).1)
    ∧ (∀ u, Event.saveCall u ∉ (execute_pipeline env cfg).1) := by
rw [execute_pipeline_empty env cfg hs hu]
refine ⟨rfl, ?_, ?_⟩ <;> intro u <;>
  cases env.scraperMode <;> cases env.storageType <;>
  simp [scraperInitEvents, storageInitEvents]

/-- Witness for the amended C6 at the relational-storage fixture. -/
theorem claim_C6_witness :
    (execute_pipeline envSql cfgZero).2 = false
    ∧ Event.fetchCall "u1" ∉ (execute_pipeline envSql cfgZero).1 := by
have h := claim_C6_no_urls_amended envSql cfgZero rfl (by decide)
exact ⟨h.1, h.2.1 "u1"⟩

/-- C7 as stated is false: when processing a url fails (here the save of
u2 raises), the loop body ends at the logged error with no delay applied
after processing, and when processing succeeds the delay applied
afterwards is the plain configured delay (main.py line 119), not the
jittered form; the only jittered delay precedes the fetch inside the
backend. -/
theorem claim_C7_counterexample :
    (processUrl envW "u2").1
      = [Event.sleepJittered, Event.fetchCall "u2", Event.saveCall "u2",
         Event.urlError "u2"]
    ∧ Event.sleepPlain ∉ (processUrl envW "u2").1
    ∧ (processUrl envW "u3").1.getLast? = some Event.sleepPlain
    ∧ Event.sleepJittered ≠ Event.sleepPlain := by
refine ⟨by decide, by decide, by decide, by decide⟩

/-- C7 amended: the jittered delay is applied by the fetch backend
before each fetch (so it opens every loop body), while the plain
unjittered configured delay is applied after processing exactly when the
url was processed successfully; on failure or empty content no delay
follows the processing. -/
theorem claim_C7_delay_amended (env : PipelineEnv) (u : String) :
    (processUrl env u).1.head? = some Event.sleepJittered
    ∧ (Event.sleepPlain ∈ (processUrl env u).1 ↔ (processUrl env u).2 = true)
    ∧ ((processUrl env u).2 = true →
        (processUrl env u).1.getLast? = some Event.sleepPlain) := by
unfold processUrl
cases hf : env.fetch u with
| error e => simp
| ok c =>
  by_cases hc : c = ""
  · simp [hc]
  · by_cases hsv : env.saveOk u <;> simp [hc, hsv]

/-- Witness for the amended C7 at the fixture urls. -/
theorem claim_C7_witness :
    (processUrl envW "u2").1.head? = some Event.sleepJittered
    ∧ (processUrl envW "u3").2 = true
    ∧ (processUrl envW "u3").1.getLast? = some Event.sleepPlain := by
have h2 := claim_C7_delay_amended envW "u2"
have h3 := claim_C7_delay_amended envW "u3"
refine ⟨h2.1, by decide, h3.2.2 (by decide)⟩

/-- C9: saving a batch of N records to a fresh path and then a batch of
M records to the same path yields exactly one header line and N plus M
data lines, the header being written only on the fresh path; and
flattening expands a nested mapping value one level into parent_child
columns. -/
theorem claim_C9_csv_header_rows_flatten
    (d1 d2 : List (List (String × CVal))) :
    headerCount (csvSave d2 (some (csvSave d1 none))) = 1
    ∧ dataCount (csvSave d2 (some (csvSave d1 none))) = d1.length + d2.length
    ∧ (csvSave d2 (some (csvSave d1 none))).length = 1 + d1.length + d2.length
    ∧ (∀ a b v, flattenItem [(a, CVal.dict [(b, v)])] = [(a ++ "_" ++ b, v)]) := by
obtain ⟨f, r1, e1, hh1, hd1, hl1⟩ := csvSave_none_parts d1
obtain ⟨r2, e2, hh2, hd2, hl2⟩ := csvSave_some_parts d2 (csvSave d1 none)
rw [e2, e1]
refine ⟨?_, ?_, ?_, ?_⟩
· unfold headerCount at *
  rw [List.cons_append, List.countP_cons, List.countP_append, hh1, hh2]
  simp [isHeaderRow]
· unfold dataCount at *
  rw [List.cons_append, List.countP_cons, List.countP_append, hd1, hd2]
  simp [isHeaderRow]
· rw [List.cons_append, List.length_cons, List.length_append, hl1, hl2]
  omega
· intro a b v
  rfl

end WebScrape
